import Mathlib

/-!
# Verification of the cycling-lts pipeline

Shallow embedding of the `app/lts.py` and `app/osmdata.py` modules of the
cycling-lts repository, together with proofs about the Level of Traffic
Stress classifier, the per-level extractor and the two writers.

Modelling conventions:
* Python dicts are association lists `List (String × α)` with insertion-order
  iteration; `dupdate` overwrites in place for an existing key and appends a
  fresh key, exactly as a Python dict does, and `dget` returns the first
  (hence unique, for dict-built lists) binding.  `d.get(k)` on a dict whose
  values may be `None` is `pyget`, which conflates a missing key with a
  stored `None`, as Python's `dict.get` does.
* Tag values and node coordinates are strings (as in the OSM data model).
* Python `int(s)` is `pyInt`, covering optionally signed decimal literals
  with surrounding whitespace; it returns `none` where Python raises
  `ValueError`.
* The float literal `1.6` in `get_maxspeed` is modelled as the exact
  rational `8/5`; every use of the result in the program (the comparison
  with 40, and the concrete values the proofs mention) agrees with the
  IEEE-double computation.
* A fallible computation (one that may raise in Python) returns an `Option`;
  `none` means the exception propagates and the run aborts.
-/

namespace CyclingLTS

/-! ## Python dict model -/

abbrev Tags := List (String × String)

/-- Lookup in a dict modelled as an association list (first binding wins;
dict-built lists have unique keys). Models `d[k]` / `d.get(k)`. -/
def dget {α : Type} : List (String × α) → String → Option α
  | [], _ => none
  | p :: d, k => if p.1 = k then some p.2 else dget d k

/-- Key membership, models Python `k in d`. -/
def hasKey {α : Type} : List (String × α) → String → Bool
  | [], _ => false
  | p :: d, k => if p.1 = k then true else hasKey d k

/-- Models `d.update({k: v})` on a Python dict: overwrite in place when the
key exists, append otherwise (preserving insertion order). -/
def dupdate {α : Type} (d : List (String × α)) (k : String) (v : α) :
    List (String × α) :=
  if hasKey d k then d.map (fun p => if p.1 = k then (k, v) else p)
  else d ++ [(k, v)]

/-- `d.get(k)` on a dict whose stored values may themselves be `None`:
a missing key and a stored `None` both give `none`. -/
def pyget {α : Type} (d : List (String × Option α)) (k : String) : Option α :=
  match dget d k with
  | some v => v
  | none => none

/-! ## Python int() and str helpers -/

def digitsToNat (cs : List Char) : Nat :=
  cs.foldl (fun a c => a * 10 + (c.toNat - 48)) 0

/-- A nonempty all-digit character list, parsed as a decimal numeral. -/
def decDigits (cs : List Char) : Option Nat :=
  if cs ≠ [] ∧ cs.all Char.isDigit then some (digitsToNat cs) else none

/-- Whitespace characters Python's `int()` strips. -/
def isPyWs (c : Char) : Bool :=
  c = ' ' ∨ c = '\t' ∨ c = '\n' ∨ c = '\r' ∨ c = '\x0b' ∨ c = '\x0c'

/-- Strip leading and trailing whitespace. -/
def pyStrip (cs : List Char) : List Char :=
  ((cs.dropWhile isPyWs).reverse.dropWhile isPyWs).reverse

/-- Models Python `int(s)`: strip surrounding whitespace, allow one optional
sign, then a nonempty run of decimal digits; `none` models `ValueError`. -/
def pyInt (s : String) : Option Int :=
  match pyStrip s.data with
  | '-' :: rest => (decDigits rest).map (fun n => -(n : Int))
  | '+' :: rest => (decDigits rest).map (fun n => (n : Int))
  | cs => (decDigits cs).map (fun n => (n : Int))

/-- Split on `;` keeping empty parts, as Python `s.split(";")` does. -/
def splitSemiAux : List Char → List Char → List String
  | [], cur => [String.mk cur.reverse]
  | c :: rest, cur =>
      if c = ';' then String.mk cur.reverse :: splitSemiAux rest []
      else splitSemiAux rest (c :: cur)

/-- Models Python `s.split(";")`. -/
def splitSemi (s : String) : List String :=
  splitSemiAux s.data []

/-- Index of the first occurrence of `pat` in the remaining characters,
offset by `i`. -/
def findSubAux (pat : List Char) : List Char → Nat → Option Nat
  | [], i => if pat = [] then some i else none
  | c :: rest, i =>
      if pat.isPrefixOf (c :: rest) then some i else findSubAux pat rest (i + 1)

/-- Models Python `s.find(pat)` (as an `Option`): the index of the first
occurrence of `pat` in `s`; `pat in s` is `(strFind s pat).isSome`. -/
def strFind (s pat : String) : Option Nat :=
  findSubAux pat.data s.data 0

/-- Models the Python slice `s[:n]`. -/
def strTake (s : String) (n : Nat) : String :=
  ⟨s.data.take n⟩

/-! ## Data model (osmdata.py) -/

/-- `Node(lat, lon)` with its `Element` tag mapping. -/
structure Node where
  lat : String
  lon : String
  tags : Tags := []
deriving DecidableEq, Repr

/-- `Way`: ordered node-id references, tags, and the `level` attribute the
classifier writes (the classifier sets it before it is ever read). -/
structure Way where
  tags : Tags := []
  nodes : List String := []
  level : Nat := 0
deriving DecidableEq, Repr

/-- Relation member (`typestr`, `reference`, `role`). -/
structure Member where
  typestr : String
  reference : String
  role : String
deriving DecidableEq, Repr

/-- `Relation`: ordered members plus tags. -/
structure Relation where
  tags : Tags := []
  members : List Member := []
deriving DecidableEq, Repr

/-- `OSMData`: the in-memory map.  Node-dict values are `Option Node`
because `LTSAnalyzer.save` stores `self.osm.nodes.get(node)`, which is
`None` for an unresolved reference. -/
structure OSMData where
  meta : Tags := []
  bounds : Tags := []
  nodes : List (String × Option Node) := []
  ways : List (String × Way) := []
  relations : List (String × Relation) := []
deriving DecidableEq, Repr

/-! ## Stress classifier (lts.py, LTSAnalyzer.run inner helpers) -/

/-- `is_cyclable(way)`. -/
def is_cyclable (tags : Tags) : Bool :=
  if dget tags "bicycle" = some "no" then false
  else if dget tags "bicycle" = some "yes" then
    if dget tags "piste:type" = some "nordic" then false else true
  else if hasKey tags "highway" then
    let highway := dget tags "highway"
    if highway = some "motorway" ∨ highway = some "motorway_link" then false
    else if highway = some "service" ∧
        (dget tags "service" = some "parking_aisle" ∨
         dget tags "service" = some "driveway") then false
    else true
  else false

/-- `is_path(way)`. -/
def is_path (tags : Tags) : Bool :=
  if hasKey tags "cycleway" then true
  else
    match dget tags "highway" with
    | some highway =>
        if highway = "cycleway" ∨ highway = "footway" ∨ highway = "path" ∨
            highway = "track" then true
        else false
    | none => false

/-- `is_residential(way)`. -/
def is_residential (tags : Tags) : Bool :=
  dget tags "highway" = some "residential"

/-- `is_oneway(way)`. -/
def is_oneway (tags : Tags) : Bool :=
  dget tags "oneway" = some "yes"

/-- `is_service(way)`. -/
def is_service (tags : Tags) : Bool :=
  dget tags "highway" = some "service"

/-- The loop body of `get_lanes` on a `;`-separated value:
`maxlanes = 0; for n in lanes.split(";"): maxlanes = max(maxlanes, int(n))`. -/
def maxLanesAux : List String → Int → Option Int
  | [], acc => some acc
  | s :: rest, acc =>
      match pyInt s with
      | some v => maxLanesAux rest (max acc v)
      | none => none

/-- `get_lanes(way)`: `-1` when the tag is absent; the `maxlanes` fold when
the value contains `;`; otherwise a single `int` parse. -/
def get_lanes (tags : Tags) : Option Int :=
  match dget tags "lanes" with
  | some lanes =>
      if 0 < lanes.data.count ';' then maxLanesAux (splitSemi lanes) 0
      else pyInt lanes
  | none => some (-1)

/-- `get_maxspeed(way)`.  The first branch reproduces the source's
`if "maxspeed" == "national"` literally: it compares the constant string
with itself, not the tag value.  `1.6` is the exact rational `8/5`. -/
def get_maxspeed (tags : Tags) : Option ℚ :=
  match dget tags "maxspeed" with
  | some maxspeed =>
      if ("maxspeed" : String) = "national" then some 40
      else
        match strFind maxspeed "mph" with
        | some i => (pyInt (strTake maxspeed i)).map (fun n => (n : ℚ) * (8 / 5))
        | none => (pyInt maxspeed).map (fun n => (n : ℚ))
  | none =>
      if dget tags "highway" = some "motorway" then some 100 else some 50

/-- The same function with the unreachable `national` branch removed;
used to state that the branch is dead code. -/
def get_maxspeed_nonational (tags : Tags) : Option ℚ :=
  match dget tags "maxspeed" with
  | some maxspeed =>
      match strFind maxspeed "mph" with
      | some i => (pyInt (strTake maxspeed i)).map (fun n => (n : ℚ) * (8 / 5))
      | none => (pyInt maxspeed).map (fun n => (n : ℚ))
  | none =>
      if dget tags "highway" = some "motorway" then some 100 else some 50

/-- A loop over a list in which each iteration may raise: `some` of the
results when every iteration succeeds, `none` as soon as one raises. -/
def optMap {α β : Type} (f : α → Option β) : List α → Option (List β)
  | [] => some []
  | a :: rest =>
      match f a with
      | some b => (optMap f rest).map (fun bs => b :: bs)
      | none => none

/-- The stress-model loop body of `LTSAnalyzer.run` for one way: the level
written onto the way, or `none` when a `ValueError` from `get_lanes` /
`get_maxspeed` aborts the run.  `way.level = 0` is the initial assignment;
each branch that fires overwrites it. -/
def classify (tags : Tags) : Option Nat :=
  if is_cyclable tags then
    if is_path tags then some 1
    else if is_service tags then some 2
    else
      match get_lanes tags with
      | none => none
      | some lanes =>
          if 2 < lanes ∧ (is_residential tags = false ∧ 1 < lanes ∧
              is_oneway tags = true) then
            match get_maxspeed tags with
            | none => none
            | some m => if m ≤ 40 then some 3 else some 4
          else if is_residential tags then some 2
          else
            match get_maxspeed tags with
            | none => none
            | some m => if m ≤ 40 then some 2 else some 3
  else some 0

/-- `LTSAnalyzer.run`: classify every way (writing its `level`); `none` when
some way raises. -/
def runMap (osm : OSMData) : Option OSMData := do
  let ws ← optMap (fun p =>
    (classify p.2.tags).map (fun l => (p.1, { p.2 with level := l }))) osm.ways
  pure { osm with ways := ws }

/-! ## Extractor (LTSAnalyzer.save, per-level block) -/

/-- One iteration of the per-level block of `LTSAnalyzer.save`: the derived
`OSMData` for `level` (fresh `OSMData()`, copied `meta`/`bounds`, the ways
whose `level` matches, and one node entry per referenced id, looked up with
`self.osm.nodes.get`). -/
def extract (osm : OSMData) (level : Nat) : OSMData :=
  let ws := osm.ways.foldl
    (fun acc p => if p.2.level = level then dupdate acc p.1 p.2 else acc) []
  let ns := ws.foldl
    (fun acc p => p.2.nodes.foldl
      (fun a nref => dupdate a nref (pyget osm.nodes nref)) acc) []
  { meta := osm.meta, bounds := osm.bounds, nodes := ns, ways := ws }

/-! ## Writers (osmdata.py) -/

/-- The coordinate pair `"["+n.lon+","+n.lat+"]"` of `save_geojson_file`. -/
def coordStr (n : Node) : String :=
  "[" ++ n.lon ++ "," ++ n.lat ++ "]"

/-- The text `save_geojson_file` writes for one way, with its coordinate
strings already resolved. -/
def featureStr (ref : String) (coords : List String) : String :=
  "\x7b\"type\":\"Feature\",\"id\":\"way/" ++ ref ++
  "\",\"properties\":\x7b\"id\":\"way/" ++ ref ++ "\"\x7d,\"geometry\":" ++
  "\x7b\"type\":\"LineString\",\"coordinates\":[" ++
  String.intercalate "," coords ++ "]\x7d\x7d"

/-- `save_geojson_file`: the full document, or `none` when
`osm.nodes.get(node)` yields `None` and the attribute access
`n.lon` raises.  (Python writes incrementally, so on failure a prefix has
already been written; the model only keeps the success/abort outcome and
the complete successful document.) -/
def save_geojson (osm : OSMData) : Option String := do
  let feats ← optMap (fun p => do
    let coords ← optMap (fun nref => (pyget osm.nodes nref).map coordStr) p.2.nodes
    pure (featureStr p.1 coords)) osm.ways
  pure ("\x7b\"type\":\"FeatureCollection\",\"features\":[" ++
    String.intercalate "," feats ++ "]\x7d")

/-- One serialization event of the streaming XML writer. -/
inductive XMLEvent where
  | declaration : XMLEvent
  | osmStart (attrs : Tags) : XMLEvent
  | metaEl (attrs : Tags) : XMLEvent
  | boundsEl (attrs : Tags) : XMLEvent
  | nodeEl (id lat lon : String) : XMLEvent
  | wayStart (id : String) : XMLEvent
  | ndEl (ref : String) : XMLEvent
  | wayEnd : XMLEvent
  | osmEnd : XMLEvent
deriving DecidableEq, Repr

/-- `save_osm_file` as its stream of events: declaration, root element,
`meta`, `bounds`, one `node` element per node entry (reading `node.lat` /
`node.lon`, so an entry holding `None` raises and yields `none`), then one
`way` element per way holding one `nd` per reference id. -/
def save_osm (osm : OSMData) : Option (List XMLEvent) := do
  let nodeEvs ← optMap (fun p =>
    p.2.map (fun n => XMLEvent.nodeEl p.1 n.lat n.lon)) osm.nodes
  let wayEvs := (osm.ways.map (fun p =>
    XMLEvent.wayStart p.1 :: (p.2.nodes.map XMLEvent.ndEl ++ [XMLEvent.wayEnd]))).flatten
  pure ([XMLEvent.declaration,
    XMLEvent.osmStart [("version", "0.6"), ("generator", "Bike Ottawa")],
    XMLEvent.metaEl osm.meta, XMLEvent.boundsEl osm.bounds] ++
    nodeEvs ++ wayEvs ++ [XMLEvent.osmEnd])

/-! ## Concrete fixtures used by witnesses and counterexamples -/

/-- Fixture node. -/
def nodeN1 : Node :=
  { lat := "45.41", lon := "-75.70" }

/-- Fixture node. -/
def nodeN2 : Node :=
  { lat := "45.42", lon := "-75.71" }

/-- Fixture: a classified cycleway (level 1) referencing `n1`. -/
def wayW1 : Way :=
  { tags := [("highway", "cycleway")], nodes := ["n1"], level := 1 }

/-- Fixture: a classified residential way (level 2) referencing `n2`. -/
def wayW2 : Way :=
  { tags := [("highway", "residential")], nodes := ["n2"], level := 2 }

/-- Fixture map with two classified ways and both references resolved. -/
def mapA : OSMData :=
  { meta := [("osm_base", "2024-01-01")], bounds := [("minlat", "45")],
    nodes := [("n1", some nodeN1), ("n2", some nodeN2)],
    ways := [("w1", wayW1), ("w2", wayW2)] }

/-- Fixture: an unclassified map whose way references a node that is not in
the map (an unresolved reference). -/
def mapB : OSMData :=
  { ways := [("w1", { tags := [("highway", "cycleway")], nodes := ["n1"] })] }

/-- The classified form of `mapB` (its single cycleway gets level 1). -/
def mapBrun : OSMData :=
  { ways := [("w1",
    { tags := [("highway", "cycleway")], nodes := ["n1"], level := 1 })] }

/-- Fixture: an unclassified two-way map (a cycleway and a `bicycle=no`
way). -/
def mapC : OSMData :=
  { ways := [("w1", { tags := [("highway", "cycleway")] }),
    ("w2", { tags := [("bicycle", "no")] })] }

/-- The classified form of `mapC` (levels 1 and 0). -/
def mapCrun : OSMData :=
  { ways := [("w1", { tags := [("highway", "cycleway")], level := 1 }),
    ("w2", { tags := [("bicycle", "no")], level := 0 })] }

/-- Placeholder node used only as a `getD` default in statements whose
hypotheses rule the default out. -/
def nodeEmpty : Node :=
  { lat := "", lon := "" }

/-- The event stream the XML writer produces for `mapA`. -/
def evsA : List XMLEvent :=
  [XMLEvent.declaration,
   XMLEvent.osmStart [("version", "0.6"), ("generator", "Bike Ottawa")],
   XMLEvent.metaEl [("osm_base", "2024-01-01")],
   XMLEvent.boundsEl [("minlat", "45")],
   XMLEvent.nodeEl "n1" "45.41" "-75.70",
   XMLEvent.nodeEl "n2" "45.42" "-75.71",
   XMLEvent.wayStart "w1", XMLEvent.ndEl "n1", XMLEvent.wayEnd,
   XMLEvent.wayStart "w2", XMLEvent.ndEl "n2", XMLEvent.wayEnd,
   XMLEvent.osmEnd]

/-! ## Dict lemmas -/

theorem hasKey_eq_isSome {α : Type} (d : List (String × α)) (k : String) :
    hasKey d k = (dget d k).isSome := by
  induction d with
  | nil => rfl
  | cons p rest ih =>
    by_cases h : p.1 = k <;> simp [hasKey, dget, h, ih]

theorem dget_append {α : Type} (a b : List (String × α)) (k : String) :
    dget (a ++ b) k = (dget a k <|> dget b k) := by
  induction a with
  | nil => simp [dget]
  | cons p rest ih =>
    by_cases h : p.1 = k <;> simp [dget, h, ih]

theorem dget_map_overwrite_ne {α : Type} (d : List (String × α)) (k : String)
    (v : α) (k' : String) (hne : k ≠ k') :
    dget (d.map (fun p => if p.1 = k then (k, v) else p)) k' = dget d k' := by
  induction d with
  | nil => rfl
  | cons p rest ih =>
    by_cases h : p.1 = k
    · simp [dget, h, hne, ih]
    · by_cases h2 : p.1 = k' <;> simp [dget, h, h2, ih, Ne.symm hne]

theorem dget_map_overwrite_eq {α : Type} (d : List (String × α)) (k : String)
    (v : α) (hk : hasKey d k = true) :
    dget (d.map (fun p => if p.1 = k then (k, v) else p)) k = some v := by
  induction d with
  | nil => simp [hasKey] at hk
  | cons p rest ih =>
    by_cases h : p.1 = k
    · simp [dget, h]
    · simp [hasKey, h] at hk
      simp [dget, h, ih hk]

theorem dget_dupdate {α : Type} (d : List (String × α)) (k : String) (v : α)
    (k' : String) :
    dget (dupdate d k v) k' = if k = k' then some v else dget d k' := by
  unfold dupdate
  by_cases hk : hasKey d k = true
  · simp only [hk, if_true]
    by_cases hkk : k = k'
    · subst hkk
      simp [dget_map_overwrite_eq d k v hk]
    · simp [dget_map_overwrite_ne d k v k' hkk, hkk]
  · rw [hasKey_eq_isSome] at hk
    have hnone : dget d k = none := by
      cases h : dget d k with
      | none => rfl
      | some w => rw [h] at hk; simp at hk
    simp only [hasKey_eq_isSome, hnone, Option.isSome_none, Bool.false_eq_true,
      if_false]
    by_cases hkk : k = k'
    · subst hkk
      rw [dget_append, hnone]
      simp [dget]
    · rw [dget_append]
      simp [dget, hkk]

theorem dget_fold_dupdate {α : Type} (f : String → α) (refs : List String)
    (acc : List (String × α)) (id : String) :
    dget (refs.foldl (fun a r => dupdate a r (f r)) acc) id
      = if id ∈ refs then some (f id) else dget acc id := by
  induction refs generalizing acc with
  | nil => simp
  | cons r rest ih =>
    simp only [List.foldl_cons, ih, dget_dupdate, List.mem_cons]
    by_cases h1 : id ∈ rest
    · simp [h1]
    · by_cases h2 : r = id
      · subst h2
        simp [h1]
      · simp [h1, h2, Ne.symm h2]

theorem hasKey_append {α : Type} (a b : List (String × α)) (k : String) :
    hasKey (a ++ b) k = (hasKey a k || hasKey b k) := by
  induction a with
  | nil => simp [hasKey]
  | cons p rest ih =>
    by_cases h : p.1 = k <;> simp [hasKey, h, ih]

theorem dupdate_of_not_hasKey {α : Type} (d : List (String × α)) (k : String)
    (v : α) (h : hasKey d k = false) :
    dupdate d k v = d ++ [(k, v)] := by
  simp [dupdate, h]

/-- The ways loop of the per-level block: starting from a fresh dict and
updating under a filter condition is `List.filter`, provided the source
dict has unique keys (as a Python dict always does). -/
theorem ways_fold_filter (L : Nat) (l : List (String × Way))
    (acc : List (String × Way))
    (hnd : (l.map Prod.fst).Nodup)
    (hacc : ∀ p ∈ l, hasKey acc p.1 = false) :
    l.foldl (fun a p => if p.2.level = L then dupdate a p.1 p.2 else a) acc
      = acc ++ l.filter (fun p => p.2.level == L) := by
  induction l generalizing acc with
  | nil => simp
  | cons p rest ih =>
    simp only [List.map_cons, List.nodup_cons, List.mem_map] at hnd
    obtain ⟨hp1, hnd'⟩ := hnd
    simp only [List.foldl_cons, List.filter_cons]
    by_cases hP : p.2.level = L
    · rw [if_pos hP, dupdate_of_not_hasKey acc p.1 p.2 (hacc p (by simp))]
      rw [ih (acc ++ [(p.1, p.2)]) hnd']
      · simp [hP]
      · intro q hq
        rw [hasKey_append, hacc q (by simp [hq]), hasKey]
        have : ¬p.1 = q.1 := fun h => hp1 ⟨q, hq, h.symm⟩
        simp [this, hasKey]
    · rw [if_neg hP, ih acc hnd' (fun q hq => hacc q (by simp [hq]))]
      have : (p.2.level == L) = false := by simp [hP]
      simp [this]

/-- The nested node loop of the per-level block is a single fold over the
concatenation of the included ways' reference lists. -/
theorem nodes_nested_fold (g : String → Option Node)
    (ws : List (String × Way)) (acc : List (String × Option Node)) :
    ws.foldl (fun a p => p.2.nodes.foldl (fun b r => dupdate b r (g r)) a) acc
      = (ws.flatMap (fun p => p.2.nodes)).foldl
          (fun b r => dupdate b r (g r)) acc := by
  induction ws generalizing acc with
  | nil => simp
  | cons p rest ih =>
    simp [List.foldl_append, ih]

/-! ## optMap lemmas -/

theorem optMap_isSome_iff {α β : Type} (f : α → Option β) (l : List α) :
    (optMap f l).isSome = true ↔ ∀ a ∈ l, (f a).isSome = true := by
  induction l with
  | nil => simp [optMap]
  | cons a rest ih =>
    cases hfa : f a with
    | none => simp [optMap, hfa]
    | some b =>
      cases hrest : optMap f rest with
      | none => simp [optMap, hfa, hrest, ← ih]
      | some bs => simp [optMap, hfa, hrest, ← ih]

theorem optMap_eq_some_map {α β : Type} (d : β) (f : α → Option β)
    (l : List α) (ys : List β) (h : optMap f l = some ys) :
    ys = l.map (fun a => (f a).getD d) := by
  induction l generalizing ys with
  | nil => simp [optMap] at h; simp [h]
  | cons a rest ih =>
    cases hfa : f a with
    | none => simp [optMap, hfa] at h
    | some b =>
      cases hrest : optMap f rest with
      | none => simp [optMap, hfa, hrest] at h
      | some bs =>
        simp only [optMap, hfa, hrest, Option.map_some, Option.map_some', Option.some.injEq] at h
        subst h
        simp [hfa, ih bs hrest]

theorem optMap_mem {α β : Type} (f : α → Option β) (l : List α) (ys : List β)
    (h : optMap f l = some ys) (b : β) (hb : b ∈ ys) :
    ∃ a ∈ l, f a = some b := by
  induction l generalizing ys with
  | nil => simp [optMap] at h; simp [h] at hb
  | cons a rest ih =>
    cases hfa : f a with
    | none => simp [optMap, hfa] at h
    | some b' =>
      cases hrest : optMap f rest with
      | none => simp [optMap, hfa, hrest] at h
      | some bs =>
        simp only [optMap, hfa, hrest, Option.map_some, Option.map_some', Option.some.injEq] at h
        subst h
        rcases List.mem_cons.mp hb with h1 | h2
        · exact ⟨a, by simp, by rw [hfa, h1]⟩
        · obtain ⟨a', ha', hfa'⟩ := ih bs hrest h2
          exact ⟨a', by simp [ha'], hfa'⟩

/-! ## Classifier lemmas -/

/-- Every level the stress model can assign is at most 4. -/
theorem classify_le_four (tags : Tags) (l : Nat) (h : classify tags = some l) :
    l ≤ 4 := by
  unfold classify at h
  repeat' split at h
  all_goals simp_all
  all_goals omega

/-- The classifier assigns level 0 exactly on the non-cyclable ways:
every cyclable way either gets a level in 1..4 or raises. -/
theorem classify_eq_zero_iff (tags : Tags) :
    classify tags = some 0 ↔ is_cyclable tags = false := by
  constructor
  · intro h
    by_cases hc : is_cyclable tags
    · exfalso
      unfold classify at h
      rw [if_pos hc] at h
      repeat' split at h
      all_goals simp_all
    · simpa using hc
  · intro h
    unfold classify
    rw [if_neg (by simp [h])]

/-- Case analysis of `is_cyclable`: the gate fails exactly for `bicycle=no`,
for `bicycle=yes` overridden by `piste:type=nordic`, or — when neither
`bicycle=no` nor `bicycle=yes` is present — for a missing `highway` tag,
`highway=motorway`/`motorway_link`, or a disqualified `highway=service`. -/
theorem is_cyclable_false_iff (tags : Tags) :
    is_cyclable tags = false ↔
      (dget tags "bicycle" = some "no" ∨
       (dget tags "bicycle" = some "yes" ∧
        dget tags "piste:type" = some "nordic") ∨
       (dget tags "bicycle" ≠ some "no" ∧ dget tags "bicycle" ≠ some "yes" ∧
        (dget tags "highway" = none ∨
         dget tags "highway" = some "motorway" ∨
         dget tags "highway" = some "motorway_link" ∨
         (dget tags "highway" = some "service" ∧
          (dget tags "service" = some "parking_aisle" ∨
           dget tags "service" = some "driveway"))))) := by
  unfold is_cyclable
  by_cases h1 : dget tags "bicycle" = some "no"
  · simp [h1]
  · by_cases h2 : dget tags "bicycle" = some "yes"
    · by_cases h3 : dget tags "piste:type" = some "nordic" <;>
        simp [h1, h2, h3]
    · cases hhw : dget tags "highway" with
      | none =>
        have hk : hasKey tags "highway" = false := by
          rw [hasKey_eq_isSome, hhw]
          rfl
        simp [h1, h2, hk, hhw]
      | some hw =>
        have hk : hasKey tags "highway" = true := by
          rw [hasKey_eq_isSome, hhw]
          rfl
        by_cases h5 : hw = "motorway" <;>
          by_cases h6 : hw = "motorway_link" <;>
          by_cases h7 : hw = "service" <;>
          by_cases h8 : dget tags "service" = some "parking_aisle" <;>
          by_cases h9 : dget tags "service" = some "driveway" <;>
          simp_all

/-- The `;` loop of `get_lanes` is a fold of `max` over the parsed parts,
seeded with the initial `maxlanes = 0`. -/
theorem maxLanesAux_eq (parts : List String) (acc : Int) :
    maxLanesAux parts acc
      = (optMap pyInt parts).map (fun vs => vs.foldl max acc) := by
  induction parts generalizing acc with
  | nil => rfl
  | cons s rest ih =>
    cases h : pyInt s with
    | none => simp [maxLanesAux, optMap, h]
    | some v =>
      cases h2 : optMap pyInt rest with
      | none => simp [maxLanesAux, optMap, h, h2, ih]
      | some vs => simp [maxLanesAux, optMap, h, h2, ih]

/-- The `mph` branch of `get_maxspeed`: the integer before the first `mph`
occurrence times `1.6`, with no truncation applied afterwards. -/
theorem get_maxspeed_mph (tags : Tags) (s : String) (i : Nat) (n : Int)
    (hms : dget tags "maxspeed" = some s)
    (hfind : strFind s "mph" = some i)
    (hparse : pyInt (strTake s i) = some n) :
    get_maxspeed tags = some ((n : ℚ) * (8 / 5)) := by
  simp only [get_maxspeed, hms]
  rw [if_neg (by decide)]
  simp [hfind, hparse]

/-! ## Claims -/

/-- C1: whenever the classifier finishes without a `ValueError` (i.e.
returns a level at all), the level lies in 0..4; the level is a
function of the way's tag mapping alone; and re-running the classifier on a
way whose tags are unchanged (even after the level was written onto it)
reproduces the same level. -/
theorem classify_total_and_tag_determined :
    (∀ (w : Way) (l : Nat), classify w.tags = some l →
      (l = 0 ∨ l = 1 ∨ l = 2 ∨ l = 3 ∨ l = 4)) ∧
    (∀ w w' : Way, w.tags = w'.tags → classify w.tags = classify w'.tags) ∧
    (∀ (w : Way) (l : Nat), classify w.tags = some l →
      classify ({ w with level := l } : Way).tags = some l) := by
  refine ⟨fun w l h => ?_, fun w w' h => by rw [h], fun w l h => h⟩
  have := classify_le_four w.tags l h
  omega

/-- Witness for C1 at a concrete way (`highway=residential`, level 2). -/
theorem classify_total_and_tag_determined_witness :
    classify ({ tags := [("highway", "residential")] } : Way).tags = some 2 ∧
    ((2 : Nat) = 0 ∨ 2 = 1 ∨ 2 = 2 ∨ 2 = 3 ∨ 2 = 4) :=
  ⟨by decide, classify_total_and_tag_determined.1
    { tags := [("highway", "residential")] } 2 (by decide)⟩

/-- C2 counterexample: a way tagged only `bicycle=designated` — a bicycle
value other than `"no"`, with no overriding condition — still receives
level 0, contradicting the claim's final sentence and its gate clause
"neither a bicycle tag nor a highway tag at all". -/
theorem classify_bicycle_designated_level_zero :
    classify [("bicycle", "designated")] = some 0 ∧
    dget ([("bicycle", "designated")] : Tags) "bicycle" = some "designated" ∧
    ("designated" : String) ≠ "no" ∧
    dget ([("bicycle", "designated")] : Tags) "piste:type" ≠ some "nordic" := by
  decide

/-- C2 (amended): the classifier assigns level 0 exactly when the gate
fails, i.e. when `bicycle=no`; or `bicycle=yes` together with
`piste:type=nordic`; or — absent both a `bicycle=no` and a `bicycle=yes`
tag — the `highway` tag is missing, or is `motorway`/`motorway_link`, or is
`service` with `service` equal to parking_aisle or driveway.  (The original
claim's last disjunct "neither a bicycle tag nor a highway tag" is
corrected to "no `bicycle=yes`/`bicycle=no` and no `highway` tag": a way
whose `bicycle` value is neither `yes` nor `no` still needs a qualifying
`highway` tag to be cyclable.) -/
theorem classify_level_zero_iff_gate_fails (tags : Tags) :
    classify tags = some 0 ↔
      (dget tags "bicycle" = some "no" ∨
       (dget tags "bicycle" = some "yes" ∧
        dget tags "piste:type" = some "nordic") ∨
       (dget tags "bicycle" ≠ some "no" ∧ dget tags "bicycle" ≠ some "yes" ∧
        (dget tags "highway" = none ∨
         dget tags "highway" = some "motorway" ∨
         dget tags "highway" = some "motorway_link" ∨
         (dget tags "highway" = some "service" ∧
          (dget tags "service" = some "parking_aisle" ∨
           dget tags "service" = some "driveway"))))) := by
  rw [classify_eq_zero_iff]
  exact is_cyclable_false_iff tags

/-- C3: a cyclable way that is neither a path nor `highway=service`, with
parsed lane count above 2 (and, redundantly, above 1), not residential and
`oneway=yes`, gets level 3 when its effective speed limit is at most 40 and
level 4 otherwise. -/
theorem classify_highstress_oneway (tags : Tags) (lanes : Int) (m : ℚ)
    (hcyc : is_cyclable tags = true) (hpath : is_path tags = false)
    (hserv : is_service tags = false)
    (hlanes : get_lanes tags = some lanes) (hl2 : 2 < lanes)
    (hres : is_residential tags = false) (hl1 : 1 < lanes)
    (hone : is_oneway tags = true)
    (hms : get_maxspeed tags = some m) :
    classify tags = some (if m ≤ 40 then 3 else 4) := by
  simp only [classify, hcyc, if_true, hpath, hserv, hlanes, hres, hone, hms,
    Bool.false_eq_true, if_false]
  rw [if_pos ⟨hl2, trivial, hl1, trivial⟩]
  split <;> simp_all

/-- Witness for C3 at the claim's examples: `highway=primary`, `lanes=4`,
`oneway=yes` with `maxspeed=60` (level 4) and `maxspeed=30` (level 3). -/
theorem classify_highstress_oneway_witness :
    classify [("highway", "primary"), ("lanes", "4"), ("oneway", "yes"),
        ("maxspeed", "60")] = some 4 ∧
    classify [("highway", "primary"), ("lanes", "4"), ("oneway", "yes"),
        ("maxspeed", "30")] = some 3 := by
  constructor
  · have h := classify_highstress_oneway
      [("highway", "primary"), ("lanes", "4"), ("oneway", "yes"),
        ("maxspeed", "60")] 4 60 (by decide) (by decide) (by decide)
      (by decide) (by decide) (by decide) (by decide) (by decide) (by decide)
    rw [h, if_neg (by norm_num)]
  · have h := classify_highstress_oneway
      [("highway", "primary"), ("lanes", "4"), ("oneway", "yes"),
        ("maxspeed", "30")] 4 30 (by decide) (by decide) (by decide)
      (by decide) (by decide) (by decide) (by decide) (by decide) (by decide)
    rw [h, if_pos (by norm_num)]

/-- C4 counterexample: `lanes=-1;-2` parses to 0, not to the maximum −1 of
the semicolon-separated parts: the loop seeds `maxlanes = 0`, so an
all-negative list yields 0. -/
theorem get_lanes_all_negative_counterexample :
    get_lanes [("lanes", "-1;-2")] = some 0 ∧
    max (-1 : Int) (-2) = -1 ∧ (0 : Int) ≠ -1 := by
  decide

/-- C4 (amended): `get_lanes` returns −1 when the way has no `lanes` tag;
when the value contains `;`, it returns the fold of `max` over the parsed
parts *seeded with 0* — the maximum of 0 and the parts, which is the
maximum of the parts whenever some part is nonnegative (`2;4` yields 4) but
is 0 for an all-negative list; otherwise it parses a single integer. -/
theorem get_lanes_spec :
    (∀ tags : Tags, dget tags "lanes" = none → get_lanes tags = some (-1)) ∧
    (∀ (tags : Tags) (s : String) (vs : List Int),
      dget tags "lanes" = some s → 0 < s.data.count ';' →
      optMap pyInt (splitSemi s) = some vs →
      get_lanes tags = some (vs.foldl max 0)) ∧
    (∀ (tags : Tags) (s : String),
      dget tags "lanes" = some s → s.data.count ';' = 0 →
      get_lanes tags = pyInt s) ∧
    get_lanes [("lanes", "2;4")] = some 4 := by
  refine ⟨?_, ?_, ?_, by decide⟩
  · intro tags h
    simp [get_lanes, h]
  · intro tags s vs h hc hp
    simp [get_lanes, h, hc, maxLanesAux_eq, hp]
  · intro tags s h hc
    simp [get_lanes, h, hc]

/-- Witness for C4 (amended) at `lanes=2;4`. -/
theorem get_lanes_spec_witness :
    optMap pyInt (splitSemi "2;4") = some [2, 4] ∧
    get_lanes [("lanes", "2;4")] = some ([(2 : Int), 4].foldl max 0) :=
  ⟨by decide, get_lanes_spec.2.1 [("lanes", "2;4")] "2;4" [2, 4]
    (by decide) (by decide) (by decide)⟩

/-- C5 counterexample: `maxspeed=32 mph` yields 32 × 1.6 = 51.2 — not an
integer at all, hence not "the leading integer multiplied by 1.6 and
truncated to an integer" (which would be 51): the code truncates the
*operand* (`int(maxspeed[:i])`), never the product. -/
theorem get_maxspeed_mph_not_truncated :
    get_maxspeed [("maxspeed", "32 mph")] = some (256 / 5) ∧
    (256 / 5 : ℚ) = 51 + 1 / 5 ∧ (256 / 5 : ℚ) ≠ 51 := by
  refine ⟨?_, by norm_num, by norm_num⟩
  have h := get_maxspeed_mph [("maxspeed", "32 mph")] "32 mph" 3 32
    (by decide) (by decide) (by decide)
  rw [h]
  norm_num

/-- C5 (amended): for a `maxspeed` value containing `mph`, the helper
returns the leading integer multiplied by 1.6 *without* truncation of the
product; `30 mph` yields exactly 48 because 30 × 1.6 = 48 is already an
integer.  When `maxspeed` is absent it returns 100 if `highway=motorway`
and 50 otherwise. -/
theorem get_maxspeed_spec :
    (∀ (tags : Tags) (s : String) (i : Nat) (n : Int),
      dget tags "maxspeed" = some s → strFind s "mph" = some i →
      pyInt (strTake s i) = some n →
      get_maxspeed tags = some ((n : ℚ) * (8 / 5))) ∧
    get_maxspeed [("maxspeed", "30 mph")] = some 48 ∧
    (∀ tags : Tags, dget tags "maxspeed" = none →
      get_maxspeed tags =
        some (if dget tags "highway" = some "motorway" then 100 else 50)) := by
  refine ⟨fun tags s i n hms hf hp => get_maxspeed_mph tags s i n hms hf hp,
    ?_, ?_⟩
  · have h := get_maxspeed_mph [("maxspeed", "30 mph")] "30 mph" 3 30
      (by decide) (by decide) (by decide)
    rw [h]
    norm_num
  intro tags h
  simp only [get_maxspeed, h]
  split <;> simp_all

/-- Witness for C5 (amended) at `maxspeed=30 mph`. -/
theorem get_maxspeed_spec_witness :
    strFind "30 mph" "mph" = some 3 ∧
    pyInt (strTake "30 mph" 3) = some 30 ∧
    get_maxspeed [("maxspeed", "30 mph")] = some ((30 : ℚ) * (8 / 5)) :=
  ⟨by decide, by decide, get_maxspeed_spec.1 [("maxspeed", "30 mph")]
    "30 mph" 3 30 (by decide) (by decide) (by decide)⟩

/-- C6: the `national` branch of `get_maxspeed` is unreachable — the
function is extensionally equal to the same code with the branch deleted,
because the comparison tests the constant string against itself; a way with
`maxspeed=national` therefore falls through to the plain `int` parse, which
raises a `ValueError` (`none`) that propagates through `classify` and
aborts the whole run, exactly as any other non-numeric `lanes`/`maxspeed`
text does. -/
theorem get_maxspeed_national_unreachable :
    (∀ tags : Tags, get_maxspeed tags = get_maxspeed_nonational tags) ∧
    get_maxspeed [("maxspeed", "national")] = none ∧
    classify [("highway", "primary"), ("maxspeed", "national")] = none ∧
    runMap { ways := [("w1",
      { tags := [("highway", "primary"), ("maxspeed", "national")] })] }
      = none ∧
    get_lanes [("lanes", "turn")] = none ∧
    classify [("highway", "primary"), ("lanes", "turn")] = none := by
  refine ⟨?_, by decide, by decide, by decide, by decide, by decide⟩
  intro tags
  have hne : ¬(("maxspeed" : String) = "national") := by decide
  unfold get_maxspeed get_maxspeed_nonational
  cases h : dget tags "maxspeed" with
  | none => rfl
  | some s => simp only [if_neg hne]

/-- The ways dict of a derived map is the filter of the source ways on the
target level (source dict keys being unique). -/
theorem extract_ways_eq (osm : OSMData) (L : Nat)
    (hnd : (osm.ways.map Prod.fst).Nodup) :
    (extract osm L).ways = osm.ways.filter (fun p => p.2.level == L) := by
  simp only [extract]
  exact ways_fold_filter L osm.ways [] hnd (fun p _ => rfl)

/-- Lookup in the nodes dict of a derived map: every id occurring in an
included way's reference list maps to the source lookup `osm.nodes.get`,
and no other id is present. -/
theorem extract_nodes_dget (osm : OSMData) (L : Nat) (id : String) :
    dget (extract osm L).nodes id
      = if id ∈ ((extract osm L).ways.flatMap (fun p => p.2.nodes))
        then some (pyget osm.nodes id) else none := by
  simp only [extract]
  rw [nodes_nested_fold]
  rw [dget_fold_dupdate (fun r => pyget osm.nodes r)]
  rfl

/-- C7: for a classified map (with unique way ids, as Python dicts
guarantee) and any level L in 1..4, the derived map copies `meta` and
`bounds`, its ways are exactly the source ways whose level equals L, its
node-id set is exactly the union of the included ways' reference
sequences, every present id is bound to the source lookup
`osm.nodes.get(id)`, and no level-0 way is included. -/
theorem extract_level_spec (osm : OSMData) (L : Nat)
    (hL : L ∈ [1, 2, 3, 4]) (hnd : (osm.ways.map Prod.fst).Nodup) :
    (extract osm L).meta = osm.meta ∧
    (extract osm L).bounds = osm.bounds ∧
    (extract osm L).ways = osm.ways.filter (fun p => p.2.level == L) ∧
    (∀ id : String, hasKey (extract osm L).nodes id = true ↔
      ∃ p ∈ osm.ways, p.2.level = L ∧ id ∈ p.2.nodes) ∧
    (∀ id : String, hasKey (extract osm L).nodes id = true →
      dget (extract osm L).nodes id = some (pyget osm.nodes id)) ∧
    (∀ p ∈ osm.ways, p.2.level = 0 → p ∉ (extract osm L).ways) := by
  have hL0 : L ≠ 0 := by
    simp only [List.mem_cons, List.not_mem_nil, or_false] at hL
    omega
  refine ⟨rfl, rfl, extract_ways_eq osm L hnd, ?_, ?_, ?_⟩
  · intro id
    have h1 : hasKey (extract osm L).nodes id = true ↔
        id ∈ ((extract osm L).ways.flatMap (fun p => p.2.nodes)) := by
      rw [hasKey_eq_isSome, extract_nodes_dget]
      by_cases hc : id ∈ ((extract osm L).ways.flatMap (fun p => p.2.nodes)) <;>
        simp [hc]
    rw [h1, extract_ways_eq osm L hnd]
    simp only [List.mem_flatMap, List.mem_filter, beq_iff_eq]
    constructor
    · rintro ⟨p, ⟨hp, hlev⟩, hid⟩
      exact ⟨p, hp, hlev, hid⟩
    · rintro ⟨p, hp, hlev, hid⟩
      exact ⟨p, ⟨hp, hlev⟩, hid⟩
  · intro id h
    rw [hasKey_eq_isSome, extract_nodes_dget] at h
    rw [extract_nodes_dget]
    by_cases hc : id ∈ ((extract osm L).ways.flatMap (fun p => p.2.nodes))
    · simp [hc]
    · simp [hc] at h
  · intro p hp h0
    rw [extract_ways_eq osm L hnd]
    simp only [List.mem_filter, beq_iff_eq, h0]
    rintro ⟨-, h⟩
    exact hL0 h.symm

/-- Witness for C7 on the fixture map `mapA` at level 1. -/
theorem extract_level_spec_witness :
    ((1 : Nat) ∈ [1, 2, 3, 4] ∧ (mapA.ways.map Prod.fst).Nodup) ∧
    (extract mapA 1).ways = mapA.ways.filter (fun p => p.2.level == 1) :=
  ⟨⟨by decide, by decide⟩, (extract_level_spec mapA 1 (by decide) (by decide)).2.2.1⟩


theorem save_geojson_spec (osm : OSMData) :
    ((save_geojson osm).isSome = true ↔
      ∀ p ∈ osm.ways, ∀ r ∈ p.2.nodes, (pyget osm.nodes r).isSome = true) ∧
    (∀ s : String, save_geojson osm = some s →
      s = "\x7b\"type\":\"FeatureCollection\",\"features\":[" ++
        String.intercalate ","
          (osm.ways.map (fun p => featureStr p.1 (p.2.nodes.map (fun r =>
            coordStr ((pyget osm.nodes r).getD nodeEmpty))))) ++ "]\x7d") := by
  have hform : ∀ p : String × Way,
      (do
        let coords ← optMap (fun nref => (pyget osm.nodes nref).map coordStr)
          p.2.nodes
        pure (featureStr p.1 coords) : Option String)
      = (optMap (fun nref => (pyget osm.nodes nref).map coordStr)
          p.2.nodes).map (featureStr p.1) := by
    intro p
    cases optMap (fun nref => (pyget osm.nodes nref).map coordStr) p.2.nodes <;>
      rfl
  have hsz : save_geojson osm
      = (optMap (fun p => (optMap (fun nref =>
          (pyget osm.nodes nref).map coordStr) p.2.nodes).map (featureStr p.1))
          osm.ways).map
        (fun feats => "\x7b\"type\":\"FeatureCollection\",\"features\":[" ++
          String.intercalate "," feats ++ "]\x7d") := by
    unfold save_geojson
    rw [funext hform]
    cases optMap (fun p => (optMap (fun nref =>
        (pyget osm.nodes nref).map coordStr) p.2.nodes).map (featureStr p.1))
        osm.ways <;> rfl
  constructor
  · rw [hsz, Option.isSome_map', optMap_isSome_iff]
    apply forall_congr'
    intro p
    apply imp_congr_right
    intro _
    rw [Option.isSome_map', optMap_isSome_iff]
    apply forall_congr'
    intro r
    apply imp_congr_right
    intro _
    rw [Option.isSome_map']
  · intro s hs
    rw [hsz] at hs
    cases hof : optMap (fun p => (optMap (fun nref =>
        (pyget osm.nodes nref).map coordStr) p.2.nodes).map (featureStr p.1))
        osm.ways with
    | none =>
      rw [hof] at hs
      exact Option.noConfusion hs
    | some feats =>
      rw [hof] at hs
      simp only [Option.map_some', Option.some.injEq] at hs
      subst hs
      congr 1
      congr 1
      rw [optMap_eq_some_map "" _ _ _ hof]
      congr 1
      apply List.map_congr_left
      intro p hp
      have hps : ((optMap (fun nref => (pyget osm.nodes nref).map coordStr)
          p.2.nodes).map (featureStr p.1)).isSome = true := by
        have := (optMap_isSome_iff _ osm.ways).mp (by rw [hof]; rfl)
        exact this p hp
      rw [Option.isSome_map'] at hps
      cases hin : optMap (fun nref => (pyget osm.nodes nref).map coordStr)
          p.2.nodes with
      | none => rw [hin] at hps; simp at hps
      | some coords =>
        simp only [Option.map_some', Option.getD_some]
        congr 1
        rw [optMap_eq_some_map (coordStr nodeEmpty) _ _ _ hin]
        apply List.map_congr_left
        intro r _
        cases hr : pyget osm.nodes r <;> simp [hr]

/-- Witness for C8 on the fixture map `mapA`, whose references all
resolve: the writer succeeds. -/
theorem save_geojson_spec_witness :
    (∀ p ∈ mapA.ways, ∀ r ∈ p.2.nodes, (pyget mapA.nodes r).isSome = true) ∧
    (save_geojson mapA).isSome = true :=
  ⟨by decide, (save_geojson_spec mapA).1.mpr (by decide)⟩

/-- C9 counterexample: classifying `mapB` (one cycleway referencing the
missing node `n1`) and extracting level 1 yields a derived map with the
explicit absent entry `("n1", None)`; the native XML writer then fails
(the `node.lat` attribute access raises), so it is not immune to
unresolved references. -/
theorem save_osm_unresolved_counterexample :
    runMap mapB = some mapBrun ∧
    (extract mapBrun 1).nodes = [("n1", none)] ∧
    save_osm (extract mapBrun 1) = none := by
  decide

/-- C9 (amended): the native XML writer emits only reference ids for way
members (every way member appears as an `nd` event), but it is not immune
to unresolved node references: it succeeds exactly when every node entry
of the map holds an actual node, and fails on the explicit absent entry
the Extractor stores for an unresolved reference. -/
theorem save_osm_success_iff (osm : OSMData) :
    ((save_osm osm).isSome = true ↔ ∀ p ∈ osm.nodes, p.2.isSome = true) ∧
    (∀ evs : List XMLEvent, save_osm osm = some evs →
      ∀ p ∈ osm.ways, ∀ r ∈ p.2.nodes, XMLEvent.ndEl r ∈ evs) := by
  have hsz : save_osm osm
      = (optMap (fun p => p.2.map (fun n => XMLEvent.nodeEl p.1 n.lat n.lon))
          osm.nodes).map
        (fun nodeEvs => [XMLEvent.declaration,
          XMLEvent.osmStart [("version", "0.6"), ("generator", "Bike Ottawa")],
          XMLEvent.metaEl osm.meta, XMLEvent.boundsEl osm.bounds] ++
          nodeEvs ++ ((osm.ways.map (fun p => XMLEvent.wayStart p.1 ::
            (p.2.nodes.map XMLEvent.ndEl ++ [XMLEvent.wayEnd]))).flatten) ++
          [XMLEvent.osmEnd]) := by
    unfold save_osm
    cases optMap (fun p => p.2.map (fun n => XMLEvent.nodeEl p.1 n.lat n.lon))
        osm.nodes <;> rfl
  constructor
  · rw [hsz, Option.isSome_map', optMap_isSome_iff]
    apply forall_congr'
    intro p
    apply imp_congr_right
    intro _
    rw [Option.isSome_map']
  · intro evs hevs p hp r hr
    rw [hsz] at hevs
    cases hof : optMap (fun p => p.2.map (fun n =>
        XMLEvent.nodeEl p.1 n.lat n.lon)) osm.nodes with
    | none =>
      rw [hof] at hevs
      exact Option.noConfusion hevs
    | some nodeEvs =>
      rw [hof] at hevs
      simp only [Option.map_some', Option.some.injEq] at hevs
      subst hevs
      apply List.mem_append.mpr
      left
      apply List.mem_append.mpr
      right
      rw [List.mem_flatten]
      refine ⟨XMLEvent.wayStart p.1 ::
        (p.2.nodes.map XMLEvent.ndEl ++ [XMLEvent.wayEnd]),
        List.mem_map.mpr ⟨p, hp, rfl⟩, ?_⟩
      apply List.mem_cons.mpr
      right
      apply List.mem_append.mpr
      left
      exact List.mem_map.mpr ⟨r, hr, rfl⟩

/-- Witness for C9 (amended) on the fixture map `mapA`. -/
theorem save_osm_success_iff_witness :
    save_osm mapA = some evsA ∧ XMLEvent.ndEl "n1" ∈ evsA :=
  ⟨by decide, (save_osm_success_iff mapA).2 evsA (by decide)
    ("w1", wayW1) (by decide) "n1" (by decide)⟩

/-- Successful `runMap` splits into the classified ways list and the
record update. -/
theorem runMap_ways_eq (osm osm' : OSMData) (h : runMap osm = some osm') :
    ∃ ws, optMap (fun p => (classify p.2.tags).map
        (fun l => (p.1, { p.2 with level := l }))) osm.ways = some ws ∧
      osm' = { osm with ways := ws } := by
  unfold runMap at h
  cases hof : optMap (fun p => (classify p.2.tags).map
      (fun l => (p.1, { p.2 with level := l }))) osm.ways with
  | none =>
    rw [hof] at h
    exact Option.noConfusion h
  | some ws =>
    rw [hof] at h
    exact ⟨ws, rfl, (Option.some.inj h).symm⟩

/-- Classification does not touch the way ids. -/
theorem runMap_keys (osm osm' : OSMData) (h : runMap osm = some osm') :
    osm'.ways.map Prod.fst = osm.ways.map Prod.fst := by
  obtain ⟨ws, hof, hw⟩ := runMap_ways_eq osm osm' h
  rw [hw]
  show ws.map Prod.fst = _
  rw [optMap_eq_some_map ("", { tags := [] }) _ _ _ hof, List.map_map]
  apply List.map_congr_left
  intro p hp
  have hsome := (optMap_isSome_iff _ _).mp (by rw [hof]; rfl) p hp
  cases hc : classify p.2.tags with
  | none =>
    rw [hc] at hsome
    simp at hsome
  | some l =>
    simp [Function.comp, hc]

/-- C10: after a run of the classifier completes without a parse error,
every way carries a level in 0..4; the four per-level extracts
are pairwise disjoint; and together they contain exactly the ways whose
level is not 0. -/
theorem runMap_levels_partition (osm osm' : OSMData)
    (h : runMap osm = some osm')
    (hnd : (osm.ways.map Prod.fst).Nodup) :
    (∀ p ∈ osm'.ways, p.2.level ∈ [0, 1, 2, 3, 4]) ∧
    (∀ L L' : Nat, L ∈ [1, 2, 3, 4] → L' ∈ [1, 2, 3, 4] →
      ∀ p : String × Way,
      p ∈ (extract osm' L).ways → p ∈ (extract osm' L').ways → L = L') ∧
    (∀ p ∈ osm'.ways, (p.2.level ≠ 0 ↔
      ∃ L, L ∈ [(1 : Nat), 2, 3, 4] ∧ p ∈ (extract osm' L).ways)) := by
  have hnd' : (osm'.ways.map Prod.fst).Nodup := by
    rw [runMap_keys osm osm' h]
    exact hnd
  have hlev : ∀ p ∈ osm'.ways, p.2.level ≤ 4 := by
    intro p hp
    obtain ⟨ws, hof, hw⟩ := runMap_ways_eq osm osm' h
    have hp' : p ∈ ws := by
      rw [hw] at hp
      exact hp
    obtain ⟨q, hq, hfq⟩ := optMap_mem _ _ _ hof p hp'
    cases hc : classify q.2.tags with
    | none =>
      rw [hc] at hfq
      exact Option.noConfusion hfq
    | some l =>
      rw [hc] at hfq
      simp only [Option.map_some', Option.some.injEq] at hfq
      have hpl : p.2.level = l := by
        rw [← hfq]
      rw [hpl]
      exact classify_le_four q.2.tags l hc
  refine ⟨?_, ?_, ?_⟩
  · intro p hp
    have := hlev p hp
    simp only [List.mem_cons, List.not_mem_nil, or_false]
    omega
  · intro L Lx hL hLx p hpL hpLx
    rw [extract_ways_eq osm' L hnd'] at hpL
    rw [extract_ways_eq osm' Lx hnd'] at hpLx
    have h1 := (List.mem_filter.mp hpL).2
    have h2 := (List.mem_filter.mp hpLx).2
    simp only [beq_iff_eq] at h1 h2
    omega
  · intro p hp
    constructor
    · intro hne
      refine ⟨p.2.level, ?_, ?_⟩
      · have := hlev p hp
        simp only [List.mem_cons, List.not_mem_nil, or_false]
        omega
      · rw [extract_ways_eq osm' _ hnd']
        simp [List.mem_filter, hp]
    · rintro ⟨L, hL, hmem⟩
      rw [extract_ways_eq osm' L hnd'] at hmem
      have h1 := (List.mem_filter.mp hmem).2
      simp only [beq_iff_eq] at h1
      simp only [List.mem_cons, List.not_mem_nil, or_false] at hL
      omega

/-- Witness for C10 on the fixture map `mapC` (a cycleway and a
`bicycle=no` way, classified to levels 1 and 0). -/
theorem runMap_levels_partition_witness :
    (runMap mapC = some mapCrun ∧ (mapC.ways.map Prod.fst).Nodup) ∧
    (∀ p ∈ mapCrun.ways, p.2.level ∈ [0, 1, 2, 3, 4]) :=
  ⟨⟨by decide, by decide⟩,
    (runMap_levels_partition mapC mapCrun (by decide) (by decide)).1⟩

end CyclingLTS

